import Mathlib

/-!
Shallow embedding of the open-rust-claw message-to-execution pipeline
(src/bot.rs, src/executor.rs, src/llm_client.rs) and proofs about it.

Rust strings are modelled as lists of Unicode scalar values.  Every index
computed by `extract_json_array` (`find('[')`, `rfind(']')`,
`find("\x60\x60\x60")`, `find('\n')`) is the position of an ASCII character, so
char indices and byte indices agree at every branch point of that
function; `truncate`, whose `s.len()` and `&s[..max]` act on raw UTF-8
bytes, is modelled with explicit byte counts.  The `Option` results
below return `none` exactly where the Rust code panics.
-/

set_option maxRecDepth 8000

namespace Claw

/-- Model type of a Rust `String` / `&str`: its scalar values in order. -/
abbrev Str := List Char

/-- Unicode White_Space test, following Rust `char::is_whitespace`
(used by `str::trim`). -/
def rustIsWhitespace (c : Char) : Bool :=
  let n := c.toNat
  (Nat.ble 0x9 n && Nat.ble n 0xD) || n == 0x20 || n == 0x85 || n == 0xA0 ||
  n == 0x1680 || (Nat.ble 0x2000 n && Nat.ble n 0x200A) || n == 0x2028 ||
  n == 0x2029 || n == 0x202F || n == 0x205F || n == 0x3000

/-- Rust `str::trim`: strip leading and trailing whitespace. -/
def trim (s : Str) : Str :=
  ((s.dropWhile rustIsWhitespace).reverse.dropWhile rustIsWhitespace).reverse

/-- Rust `str::find` for a pattern string: index of its first occurrence. -/
def findSub (pat : Str) : Str → Option Nat
  | [] => if pat.isPrefixOf ([] : Str) then some 0 else none
  | c :: rest =>
    if pat.isPrefixOf (c :: rest) then some 0
    else (findSub pat rest).map (· + 1)

/-- Rust `str::rfind` for a single-character predicate: index of the last
occurrence. -/
def rfindIdx (p : Char → Bool) (s : Str) : Option Nat :=
  (s.reverse.findIdx? p).map (fun i => s.length - 1 - i)

/-- The fenced code block marker: three backquote characters (U+0060). -/
def tripleBacktick : Str := List.replicate 3 (Char.ofNat 0x60)

/-- `extract_json_array` from src/bot.rs.  `none` is returned exactly where
the Rust code panics: the slice `text[start..=end]` in the bracket branch
aborts when `start > end + 1` (slice start after slice end); every other
path of the source is total. -/
def extract_json_array (text : Str) : Option Str :=
  let fenced : Option Str :=
    match findSub tripleBacktick text with
    | none => none
    | some start =>
      let after_backticks := text.drop (start + 3)
      let content_start := ((after_backticks.findIdx? (fun c => c == '\n')).map (· + 1)).getD 0
      let content := after_backticks.drop content_start
      match findSub tripleBacktick content with
      | none => none
      | some e => some (trim (content.take e))
  match fenced with
  | some r => some r
  | none =>
    match text.findIdx? (fun c => c == '['), rfindIdx (fun c => c == ']') text with
    | some start, some e =>
      if start ≤ e + 1 then some ((text.drop start).take (e + 1 - start)) else none
    | some _, none => some (trim text)
    | none, _ => some (trim text)

/-- `TaskCommand` from src/executor.rs. -/
structure TaskCommand where
  command : Str
  description : Str
  deriving DecidableEq

/-- `CommandResult` from src/executor.rs. -/
structure CommandResult where
  command : Str
  success : Bool
  exit_code : Option Int
  stdout : Str
  stderr : Str
  deriving DecidableEq

/-- `parse_commands` from src/bot.rs.  `serde_json::from_str` is external
library code and is passed in as the `decode` argument; a decode error is
swallowed into the empty list (only logged).  A `none` result propagates
the panic of `extract_json_array`. -/
def parse_commands (decode : Str → Except Str (List TaskCommand)) (llm_response : Str) :
    Option (List TaskCommand) :=
  match extract_json_array llm_response with
  | none => none
  | some json_text =>
    match decode json_text with
    | Except.ok cmds => some cmds
    | Except.error _ => some []

/-- The truncation marker appended by `truncate` in src/bot.rs. -/
def truncMarker : Str := "...(截断)".data

/-- UTF-8 encoding width of one scalar value, as Rust byte lengths count
it. -/
def utf8Size (c : Char) : Nat :=
  if c.toNat < 0x80 then 1
  else if c.toNat < 0x800 then 2
  else if c.toNat < 0x10000 then 3
  else 4

/-- Rust `str::len`: the UTF-8 byte length. -/
def utf8Len (s : Str) : Nat := (s.map utf8Size).sum

/-- Rust byte slice `&s[..n]`: the characters of the first `n` bytes, or
`none` — a panic — when byte `n` is not a character boundary (or lies
past the end). -/
def takeBytes : Nat → Str → Option Str
  | 0, _ => some []
  | _ + 1, [] => none
  | n + 1, c :: rest =>
    if utf8Size c ≤ n + 1 then (takeBytes (n + 1 - utf8Size c) rest).map (fun t => c :: t)
    else none

/-- `truncate` from src/bot.rs: `s.len()` is the byte length and
`&s[..max]` a byte slice, so `none` — the panic of the slice — arises
whenever byte `max` of an over-long string falls inside a multibyte
character. -/
def truncate (s : Str) (max : Nat) : Option Str :=
  if utf8Len s ≤ max then some s
  else (takeBytes max s).map (fun t => t ++ truncMarker)

/-- One result block of the report built by `format_results` (src/bot.rs);
`none` propagates a panic of `truncate`. -/
def resultBlock (desc : Str) (result : CommandResult) : Option Str :=
  match (if result.stdout.isEmpty then some ([] : Str)
         else (truncate result.stdout 500).map (fun t => "  输出:\n".data ++ t ++ "\n".data)),
        (if result.stderr.isEmpty then some ([] : Str)
         else (truncate result.stderr 300).map (fun t => "  错误:\n".data ++ t ++ "\n".data)) with
  | some outPart, some errPart =>
    some ((if result.success then "✅".data else "❌".data) ++ " ".data ++ desc ++ "\n".data ++
      "  命令: ".data ++ result.command ++ "\n".data ++ outPart ++ errPart ++ "\n".data)
  | _, _ => none

/-- `format_results` from src/bot.rs; `none` propagates a panic of
`truncate` inside any block. -/
def format_results (commands : List TaskCommand) (results : List CommandResult) : Option Str :=
  (results.enum.mapM (fun p =>
    resultBlock (((commands[p.1]?).map (fun c => c.description)).getD "未知".data) p.2)).map
      (fun blocks => "📋 任务执行报告\n\n".data ++ blocks.flatten)

/-- Exit status of a finished child process: `code` is `none` when the
process was killed by a signal (Rust `ExitStatus::code`). -/
structure ExitStatus where
  code : Option Int
  deriving DecidableEq

/-- Rust `ExitStatus::success`: the process exited with status zero. -/
def ExitStatus.success (s : ExitStatus) : Bool := s.code == some 0

/-- Captured output of a finished child process, stdout/stderr already
lossily UTF-8 decoded. -/
structure ProcessOutput where
  status : ExitStatus
  stdout : Str
  stderr : Str
  deriving DecidableEq

/-- Outcome of the timeout-guarded child process awaited by `run_command`:
normal completion, elapsed timeout, or an I/O error spawning/running. -/
inductive ProcOutcome where
  | ok (out : ProcessOutput)
  | timeout
  | spawnError
  deriving DecidableEq

/-- Error text produced by the timeout context in `run_command`
(src/executor.rs): `命令超时 ({} 秒): {cmd}`. -/
def timeoutMsg (tsecs : Nat) (cmd : Str) : Str :=
  "命令超时 (".data ++ (toString tsecs).data ++ " 秒): ".data ++ cmd

/-- Error text produced by the spawn-failure context in `run_command`
(src/executor.rs): `命令执行失败: {cmd}`. -/
def spawnErrMsg (cmd : Str) : Str := "命令执行失败: ".data ++ cmd

/-- The `CommandResult` record built by `run_command` from a finished
process (the `let result = CommandResult { .. }` of src/executor.rs). -/
def okResult (cmd : Str) (out : ProcessOutput) : CommandResult :=
  { command := cmd, success := out.status.success, exit_code := out.status.code,
    stdout := out.stdout, stderr := out.stderr }

/-- `Executor::run_command` from src/executor.rs, as a function of the
process outcome: errors on timeout or spawn failure, otherwise packages
the captured output into a `CommandResult`. -/
def run_command (tsecs : Nat) (cmd : Str) (outcome : ProcOutcome) : Except Str CommandResult :=
  match outcome with
  | ProcOutcome.timeout => Except.error (timeoutMsg tsecs cmd)
  | ProcOutcome.spawnError => Except.error (spawnErrMsg cmd)
  | ProcOutcome.ok out => Except.ok (okResult cmd out)

/-- The Runner exactly as `run_commands` invokes it: `run_command` applied
to a process oracle giving each command's process outcome. -/
def mkRunner (tsecs : Nat) (proc : Str → ProcOutcome) : Str → Except Str CommandResult :=
  fun cmd => run_command tsecs cmd (proc cmd)

/-- The `CommandResult` synthesized by `run_commands` when the Runner
itself fails (src/executor.rs, error arm of the match). -/
def synthResult (cmd e : Str) : CommandResult :=
  { command := cmd, success := false, exit_code := none, stdout := [], stderr := e }

/-- Loop of `Executor::run_commands` (src/executor.rs), instrumented: the
second component records the command strings on which the Runner was
invoked, one entry per loop iteration, in order. -/
def run_commands_aux (runner : Str → Except Str CommandResult) :
    List TaskCommand → List CommandResult × List Str
  | [] => ([], [])
  | task :: rest =>
    match runner task.command with
    | Except.ok result =>
      if result.success then
        (result :: (run_commands_aux runner rest).1,
         task.command :: (run_commands_aux runner rest).2)
      else ([result], [task.command])
    | Except.error e => ([synthResult task.command e], [task.command])

/-- `Executor::run_commands` from src/executor.rs: the aggregated results. -/
def run_commands (runner : Str → Except Str CommandResult) (commands : List TaskCommand) :
    List CommandResult :=
  (run_commands_aux runner commands).1

/-- Commands passed to the Runner by `run_commands`, in invocation order. -/
def runner_calls (runner : Str → Except Str CommandResult) (commands : List TaskCommand) :
    List Str :=
  (run_commands_aux runner commands).2

/-- `serde_json::Value`, as far as `LlmClient::chat` inspects it. -/
inductive Value where
  | null
  | bool (b : Bool)
  | num (n : Int)
  | s (v : Str)
  | arr (xs : List Value)
  | obj (fields : List (Str × Value))

/-- Object field access, one step of `Value::pointer`. -/
def jsonGet (key : Str) : Value → Option Value
  | Value.obj fields => fields.lookup key
  | _ => none

/-- Array index access, one step of `Value::pointer`. -/
def jsonIdx (i : Nat) : Value → Option Value
  | Value.arr xs => xs[i]?
  | _ => none

/-- `Value::pointer` with the fixed path `/choices/0/message/content`
used in src/llm_client.rs. -/
def pointer_choices0 (v : Value) : Option Value :=
  (((jsonGet "choices".data v).bind (jsonIdx 0)).bind (jsonGet "message".data)).bind
    (jsonGet "content".data)

/-- `Value::as_str`. -/
def asStr : Value → Option Str
  | Value.s v => some v
  | _ => none

/-- HTTP response as `LlmClient::chat` observes it: status code, raw body
text (used for the non-2xx error detail) and the result of JSON-decoding
the body (`none` when decoding fails). -/
structure HttpResponse where
  status : Nat
  text : Str
  json : Option Value

/-- Error text of the non-2xx bail in `LlmClient::chat`:
`LLM API 错误 {status}: {text}`. -/
def apiErrMsg (status : Nat) (text : Str) : Str :=
  "LLM API 错误 ".data ++ (toString status).data ++ ": ".data ++ text

/-- `LlmClient::chat` from src/llm_client.rs, as a function of the HTTP
exchange outcome; `none` models a transport error of `send()`.  Mirrors
the source: bail on non-2xx status, error on JSON decode failure, else
the content at `/choices/0/message/content` with `""` as default. -/
def llm_chat (resp : Option HttpResponse) : Except Str Str :=
  match resp with
  | none => Except.error "LLM API 请求失败".data
  | some r =>
    if 200 ≤ r.status ∧ r.status ≤ 299 then
      match r.json with
      | none => Except.error "LLM 响应解析失败".data
      | some v => Except.ok (((pointer_choices0 v).bind asStr).getD [])
    else Except.error (apiErrMsg r.status r.text)

/-- Observable effects of one inbound message in `handle_message`
(src/bot.rs): outbound chat sends, Model Gateway calls, executor runs,
and a task-aborting panic.  Process log lines (println!/tracing) are not
chat traffic and are not modelled. -/
inductive Event where
  | sent (chat_id : Int) (text : Str)
  | llmCalled (user_message : Str)
  | ranCommands (commands : List TaskCommand)
  | panicked
  deriving DecidableEq

/-- The transient acknowledgement notice sent in step 3 of the handler. -/
def analyzingNotice : Str := "🔄 正在分析任务...".data

/-- The gateway-error notice: `❌ LLM 调用失败: {e}`. -/
def llmErrorNotice (e : Str) : Str := "❌ LLM 调用失败: ".data ++ e

/-- The nothing-to-execute notice. -/
def noCommandsNotice : Str := "ℹ️ 该消息不需要执行任何命令".data

/-- One numbered line of the plan message: `{i+1}. {desc} → \x60{cmd}\x60`. -/
def planLine (i : Nat) (c : TaskCommand) : Str :=
  (toString (i + 1)).data ++ ". ".data ++ c.description ++ " → ".data ++
    [Char.ofNat 0x60] ++ c.command ++ [Char.ofNat 0x60]

/-- The plan announcement built in `handle_message`. -/
def planMessage (commands : List TaskCommand) : Str :=
  "📝 执行计划:\n".data ++
    List.intercalate "\n".data (commands.enum.map (fun p => planLine p.1 p.2))

/-- Steps 2-8 of `handle_message` (src/bot.rs), after the authorization
check has passed: content check, acknowledge, query the model, extract,
announce the plan, execute, optionally report. -/
def handle_authorized (echo_result : Bool) (chat_id : Int) (text : Option Str)
    (llm : Str → Except Str Str) (decode : Str → Except Str (List TaskCommand))
    (runner : Str → Except Str CommandResult) : List Event :=
  match text with
  | none => []
  | some t =>
    Event.sent chat_id analyzingNotice :: Event.llmCalled t ::
    (match llm t with
    | Except.error e => [Event.sent chat_id (llmErrorNotice e)]
    | Except.ok resp =>
      match parse_commands decode resp with
      | none => [Event.panicked]
      | some commands =>
        if commands.isEmpty then [Event.sent chat_id noCommandsNotice]
        else
          Event.sent chat_id (planMessage commands) :: Event.ranCommands commands ::
          (if echo_result then
            match format_results commands (run_commands runner commands) with
            | none => [Event.panicked]
            | some report => [Event.sent chat_id report]
          else []))

/-- `handle_message` from src/bot.rs: the observable chat/LLM/executor
events of one inbound message, starting with the authorization check
`!allowed_chats.is_empty() && !allowed_chats.contains(&chat_id)`. -/
def handle_message (allowed_chats : List Int) (echo_result : Bool) (chat_id : Int)
    (text : Option Str) (llm : Str → Except Str Str)
    (decode : Str → Except Str (List TaskCommand))
    (runner : Str → Except Str CommandResult) : List Event :=
  if !allowed_chats.isEmpty && !allowed_chats.contains chat_id then []
  else handle_authorized echo_result chat_id text llm decode runner

/-! Concrete data for the worked examples and witnesses. -/

/-- Example command A of the C1 scenario: exits 0. -/
def exCmdA : TaskCommand := { command := "echo a".data, description := "A".data }

/-- Example command B of the C1 scenario: exits 1. -/
def exCmdB : TaskCommand := { command := "exit 1".data, description := "B".data }

/-- Example command C of the C1 scenario: would exit 0, never attempted. -/
def exCmdC : TaskCommand := { command := "echo c".data, description := "C".data }

/-- The C1 example list `[A (exit 0), B (exit 1), C (exit 0)]`. -/
def exCmds : List TaskCommand := [exCmdA, exCmdB, exCmdC]

/-- Process oracle for the C1 example: `exit 1` exits with code 1, every
other command exits with code 0, nothing times out. -/
def exProc (cmd : Str) : ProcOutcome :=
  if cmd == "exit 1".data then ProcOutcome.ok ⟨⟨some 1⟩, [], []⟩
  else ProcOutcome.ok ⟨⟨some 0⟩, [], []⟩

/-- The Runner of the C1 example. -/
def exRunner : Str → Except Str CommandResult := mkRunner 120 exProc

/-- Result of command A in the C1 example. -/
def exResA : CommandResult :=
  { command := "echo a".data, success := true, exit_code := some 0, stdout := [], stderr := [] }

/-- Result of command B in the C1 example. -/
def exResB : CommandResult :=
  { command := "exit 1".data, success := false, exit_code := some 1, stdout := [], stderr := [] }

/-- Command that times out in the C6 witness scenario. -/
def exCmdT : TaskCommand := { command := "sleep 999".data, description := "T".data }

/-- Process oracle for the C6 witness: `sleep 999` times out, everything
else exits with code 0. -/
def exProcT (cmd : Str) : ProcOutcome :=
  if cmd == "sleep 999".data then ProcOutcome.timeout else ProcOutcome.ok ⟨⟨some 0⟩, [], []⟩

/-- The Runner of the C6 witness scenario. -/
def exRunnerT : Str → Except Str CommandResult := mkRunner 120 exProcT

/-- The timeout error message of the C6 witness scenario. -/
def exErrMsg : Str := timeoutMsg 120 "sleep 999".data

/-- Gateway stub for the C5 witness: always answers `[]`. -/
def exLlm : Str → Except Str Str := fun _ => Except.ok "[]".data

/-- Decoder stub for the C5 witness: always decodes the empty list. -/
def exDecode : Str → Except Str (List TaskCommand) := fun _ => Except.ok []

/-! Helper lemmas about the executor loop. -/

/-- Command field of a packaged result. -/
theorem okResult_command (cmd : Str) (out : ProcessOutput) :
    (okResult cmd out).command = cmd := rfl

/-- Success field of a packaged result. -/
theorem okResult_success (cmd : Str) (out : ProcessOutput) :
    (okResult cmd out).success = out.status.success := rfl

/-- Exit-code field of a packaged result. -/
theorem okResult_exit_code (cmd : Str) (out : ProcessOutput) :
    (okResult cmd out).exit_code = out.status.code := rfl

/-- Unfolding of the loop when the Runner succeeds and the result did:
append the result and continue with the rest. -/
theorem rc_cons_ok_true (runner : Str → Except Str CommandResult) (t : TaskCommand)
    (rest : List TaskCommand) (r : CommandResult)
    (h : runner t.command = Except.ok r) (hs : r.success = true) :
    run_commands runner (t :: rest) = r :: run_commands runner rest ∧
    runner_calls runner (t :: rest) = t.command :: runner_calls runner rest := by
  constructor <;> simp [run_commands, runner_calls, run_commands_aux, h, hs]

/-- Unfolding of the loop when the Runner succeeds but the command did
not: append the result and stop. -/
theorem rc_cons_ok_false (runner : Str → Except Str CommandResult) (t : TaskCommand)
    (rest : List TaskCommand) (r : CommandResult)
    (h : runner t.command = Except.ok r) (hs : r.success = false) :
    run_commands runner (t :: rest) = [r] ∧
    runner_calls runner (t :: rest) = [t.command] := by
  constructor <;> simp [run_commands, runner_calls, run_commands_aux, h, hs]

/-- Unfolding of the loop when the Runner itself fails: append the
synthesized result and stop. -/
theorem rc_cons_err (runner : Str → Except Str CommandResult) (t : TaskCommand)
    (rest : List TaskCommand) (e : Str) (h : runner t.command = Except.error e) :
    run_commands runner (t :: rest) = [synthResult t.command e] ∧
    runner_calls runner (t :: rest) = [t.command] := by
  constructor <;> simp [run_commands, runner_calls, run_commands_aux, h]

/-- The result list never outgrows the command list. -/
theorem rc_length_le (runner : Str → Except Str CommandResult) :
    ∀ commands : List TaskCommand,
      (run_commands runner commands).length ≤ commands.length := by
  intro commands
  induction commands with
  | nil => simp [run_commands, run_commands_aux]
  | cons t rest ih =>
    cases h : runner t.command with
    | ok r =>
      by_cases hs : r.success = true
      · rw [(rc_cons_ok_true runner t rest r h hs).1]
        simpa using ih
      · rw [(rc_cons_ok_false runner t rest r h (by simpa using hs)).1]
        simp
    | error e =>
      rw [(rc_cons_err runner t rest e h).1]
      simp

/-- One Runner invocation per appended result. -/
theorem rc_calls_length (runner : Str → Except Str CommandResult) :
    ∀ commands : List TaskCommand,
      (runner_calls runner commands).length = (run_commands runner commands).length := by
  intro commands
  induction commands with
  | nil => rfl
  | cons t rest ih =>
    cases h : runner t.command with
    | ok r =>
      by_cases hs : r.success = true
      · rw [(rc_cons_ok_true runner t rest r h hs).1, (rc_cons_ok_true runner t rest r h hs).2]
        simpa using ih
      · rw [(rc_cons_ok_false runner t rest r h (by simpa using hs)).1,
            (rc_cons_ok_false runner t rest r h (by simpa using hs)).2]
        rfl
    | error e =>
      rw [(rc_cons_err runner t rest e h).1, (rc_cons_err runner t rest e h).2]
      rfl

/-- The result list is strictly shorter than the command list exactly
when some attempted command failed at a position other than the last
input position. -/
theorem rc_lt_iff (runner : Str → Except Str CommandResult) :
    ∀ commands : List TaskCommand,
      ((run_commands runner commands).length < commands.length ↔
        ∃ i r, (run_commands runner commands)[i]? = some r ∧ r.success = false ∧
          i + 1 < commands.length) := by
  intro commands
  induction commands with
  | nil =>
    simp [run_commands, run_commands_aux]
  | cons t rest ih =>
    cases h : runner t.command with
    | ok r =>
      by_cases hs : r.success = true
      · rw [(rc_cons_ok_true runner t rest r h hs).1]
        constructor
        · intro hlt
          have hlt' : (run_commands runner rest).length < rest.length := by
            simpa using hlt
          obtain ⟨i, r', hget, hfail, hi⟩ := ih.mp hlt'
          exact ⟨i + 1, r', by simpa using hget, hfail, by simpa using Nat.succ_lt_succ hi⟩
        · rintro ⟨i, r', hget, hfail, hi⟩
          cases i with
          | zero =>
            simp only [List.getElem?_cons_zero, Option.some.injEq] at hget
            rw [← hget] at hfail
            rw [hs] at hfail
            exact absurd hfail (by simp)
          | succ j =>
            simp only [List.getElem?_cons_succ] at hget
            have hj : j + 1 < rest.length := by
              simpa using Nat.lt_of_succ_lt_succ hi
            have := ih.mpr ⟨j, r', hget, hfail, hj⟩
            simpa using Nat.succ_lt_succ this
      · have hsf : r.success = false := by simpa using hs
        rw [(rc_cons_ok_false runner t rest r h hsf).1]
        constructor
        · intro hlt
          exact ⟨0, r, rfl, hsf, by simpa using hlt⟩
        · rintro ⟨i, r', hget, hfail, hi⟩
          cases i with
          | zero => simpa using hi
          | succ j => simp at hget
    | error e =>
      rw [(rc_cons_err runner t rest e h).1]
      constructor
      · intro hlt
        exact ⟨0, synthResult t.command e, rfl, rfl, by simpa using hlt⟩
      · rintro ⟨i, r', hget, hfail, hi⟩
        cases i with
        | zero => simpa using hi
        | succ j => simp at hget

/-- Every command of an all-successful prefix passes through the loop,
and a failing Runner right after it appends the synthesized result and
stops. -/
theorem rc_append_err (runner : Str → Except Str CommandResult) (t : TaskCommand)
    (rest : List TaskCommand) (e : Str) (ht : runner t.command = Except.error e) :
    ∀ pre : List TaskCommand,
      (∀ c ∈ pre, ∃ r, runner c.command = Except.ok r ∧ r.success = true) →
      run_commands runner (pre ++ t :: rest) =
        run_commands runner pre ++ [synthResult t.command e] := by
  intro pre
  induction pre with
  | nil =>
    intro _
    simp only [List.nil_append]
    rw [(rc_cons_err runner t rest e ht).1]
    rfl
  | cons c pre ih =>
    intro hpre
    obtain ⟨r, hr, hs⟩ := hpre c (by simp)
    have hpre' : ∀ c' ∈ pre, ∃ r', runner c'.command = Except.ok r' ∧ r'.success = true :=
      fun c' hc' => hpre c' (by simp [hc'])
    have h1 := (rc_cons_ok_true runner c (pre ++ t :: rest) r hr hs).1
    have h2 := (rc_cons_ok_true runner c pre r hr hs).1
    calc run_commands runner ((c :: pre) ++ t :: rest)
        = r :: run_commands runner (pre ++ t :: rest) := by
          simpa using h1
      _ = r :: (run_commands runner pre ++ [synthResult t.command e]) := by
          rw [ih hpre']
      _ = run_commands runner (c :: pre) ++ [synthResult t.command e] := by
          rw [h2]; rfl

/-! Claim theorems. -/

/-- C1: `run_commands` processes the input list strictly in order and
stops at the first non-success.  For the empty list it returns an empty
sequence with zero Runner invocations; the result sequence has one entry
per Runner invocation and is never longer than the input, and it is
strictly shorter than the input exactly when a failure occurred before
the last input position.  On `[A (exit 0), B (exit 1), C (exit 0)]` it
returns exactly the results of A and B with success `[true, false]` and
the Runner is never invoked on C. -/
theorem run_commands_fail_stop (runner : Str → Except Str CommandResult)
    (commands : List TaskCommand) :
    (run_commands runner ([] : List TaskCommand) = [] ∧
      runner_calls runner ([] : List TaskCommand) = []) ∧
    (runner_calls runner commands).length = (run_commands runner commands).length ∧
    (run_commands runner commands).length ≤ commands.length ∧
    ((run_commands runner commands).length < commands.length ↔
      ∃ i r, (run_commands runner commands)[i]? = some r ∧ r.success = false ∧
        i + 1 < commands.length) ∧
    (run_commands exRunner exCmds = [exResA, exResB] ∧
      (run_commands exRunner exCmds).map (fun r => r.success) = [true, false] ∧
      runner_calls exRunner exCmds = ["echo a".data, "exit 1".data] ∧
      "echo c".data ∉ runner_calls exRunner exCmds) :=
  ⟨⟨rfl, rfl⟩, rc_calls_length runner commands, rc_length_le runner commands,
    rc_lt_iff runner commands, by decide⟩

/-- C2 (code bug): the three-tier fallback is not delivered on every
input.  On `"]ab["` no fenced block exists, so the bracket branch runs
with first `[` at index 3 and last `]` at index 0, and the slice
`text[3..=0]` panics (modelled as `none`) instead of producing the
claimed candidate; on fenced, bracket-ordered and bracket-free inputs
the code does follow the claimed tiers. -/
theorem extract_fallback_panics :
    extract_json_array "]ab[".data = none ∧
    extract_json_array "pre ```json\n[1]\n``` post".data = some "[1]".data ∧
    extract_json_array "x ==> [1, 2]".data = some "[1, 2]".data ∧
    extract_json_array "no brackets here".data = some "no brackets here".data := by
  refine ⟨by decide, by decide, by decide, by decide⟩

/-- C3 (code bug): the report's `truncate` counts bytes, not characters.
A 200-character stdout of 3-byte characters is at or below the claimed
500-character limit, yet its 600-byte length enters the truncation
branch and the slice panics at byte 500, mid-character (`none`); 300
two-byte characters are silently cut to 250 characters plus the marker
instead of being reproduced verbatim, and 120 three-byte characters
against the 300 limit become 100 characters plus the marker.  Only where
byte and character counts coincide (ASCII) does the code show the
claimed behavior: verbatim at or below the limit, exactly 500 characters
plus the marker above it. -/
theorem truncate_byte_slice_diverges :
    truncate (List.replicate 200 '中') 500 = none ∧
    truncate (List.replicate 300 'é') 500 = some (List.replicate 250 'é' ++ truncMarker) ∧
    truncate (List.replicate 120 '中') 300 = some (List.replicate 100 '中' ++ truncMarker) ∧
    truncate "ab".data 500 = some "ab".data ∧
    truncate (List.replicate 501 'a') 500 = some (List.replicate 500 'a' ++ truncMarker) := by
  refine ⟨by decide, by decide, by decide, by decide, by decide⟩

/-- C4 counterexample: a 200 response whose body is the well-formed JSON
object `{}` — malformed with respect to the documented schema, since it
has no `choices[0].message.content` string — makes `llm_chat` return a
success with empty content, not an error; downstream this is
indistinguishable from a model answer carrying no commands. -/
theorem llm_chat_schema_gap :
    llm_chat (some { status := 200, text := [], json := some (Value.obj []) }) =
      Except.ok [] ∧
    pointer_choices0 (Value.obj []) = none :=
  ⟨rfl, rfl⟩

/-- C4 as amended: `llm_chat` errors on transport failure, on every
non-2xx status and on every body that fails JSON decoding — all
distinguishable from any success — while a body that decodes to JSON
lacking `choices[0].message.content` as a string yields success with the
empty (or extracted) content. -/
theorem llm_chat_error_cases (r : HttpResponse) :
    llm_chat none = Except.error "LLM API 请求失败".data ∧
    (¬(200 ≤ r.status ∧ r.status ≤ 299) → ∃ e, llm_chat (some r) = Except.error e) ∧
    ((200 ≤ r.status ∧ r.status ≤ 299) → r.json = none →
      llm_chat (some r) = Except.error "LLM 响应解析失败".data) ∧
    (∀ v, (200 ≤ r.status ∧ r.status ≤ 299) → r.json = some v →
      llm_chat (some r) = Except.ok (((pointer_choices0 v).bind asStr).getD [])) ∧
    (∀ e c, (Except.error e : Except Str Str) ≠ Except.ok c) := by
  refine ⟨rfl, fun h => ?_, fun h hj => ?_, fun v h hj => ?_, fun e c => by simp⟩
  · exact ⟨apiErrMsg r.status r.text, by simp [llm_chat, h]⟩
  · simp [llm_chat, h, hj]
  · simp [llm_chat, h, hj]

/-- Witness for C4's amended claim at a concrete 500 response. -/
theorem llm_chat_error_cases_witness :
    ∃ e, llm_chat (some { status := 500, text := [], json := none }) = Except.error e :=
  (llm_chat_error_cases { status := 500, text := [], json := none }).2.1 (by decide)

/-- C5: a message whose chat identifier is outside a non-empty
allow-list produces no events at all — in particular zero outbound sends
and zero Model Gateway calls — and with an empty allow-list the
authorization gate passes for every chat identifier, the handler
proceeding exactly as the post-authorization pipeline. -/
theorem handler_auth_gate (allowed_chats : List Int) (echo_result : Bool) (chat_id : Int)
    (text : Option Str) (llm : Str → Except Str Str)
    (decode : Str → Except Str (List TaskCommand))
    (runner : Str → Except Str CommandResult) :
    (allowed_chats ≠ [] → chat_id ∉ allowed_chats →
      handle_message allowed_chats echo_result chat_id text llm decode runner = []) ∧
    handle_message [] echo_result chat_id text llm decode runner =
      handle_authorized echo_result chat_id text llm decode runner := by
  constructor
  · intro h1 h2
    have hne : allowed_chats.isEmpty = false := by
      cases allowed_chats with
      | nil => exact absurd rfl h1
      | cons a l => rfl
    simp [handle_message, hne, h2]
  · rfl

/-- Witness for C5: chat 7 against the allow-list `[5]` produces no
events. -/
theorem handler_auth_gate_witness :
    handle_message [(5 : Int)] true 7 (some "hi".data) exLlm exDecode exRunner = [] :=
  (handler_auth_gate [(5 : Int)] true 7 (some "hi".data) exLlm exDecode exRunner).1
    (by decide) (by decide)

/-- C6: when the Runner fails on a command after an all-successful
prefix, `run_commands` appends exactly one synthesized result — success
false, exit code absent, stderr the error message — and executes none of
the remaining commands; a timeout makes `run_command` fail with the
timeout message, which is such a Runner failure, distinguishable from a
non-zero exit by its absent exit code. -/
theorem runner_error_synthesizes (tsecs : Nat) (runner : Str → Except Str CommandResult)
    (pre : List TaskCommand) (t : TaskCommand) (rest : List TaskCommand) (e : Str)
    (hpre : ∀ c ∈ pre, ∃ r, runner c.command = Except.ok r ∧ r.success = true)
    (ht : runner t.command = Except.error e) :
    run_commands runner (pre ++ t :: rest) =
      run_commands runner pre ++ [synthResult t.command e] ∧
    (synthResult t.command e).success = false ∧
    (synthResult t.command e).exit_code = none ∧
    (synthResult t.command e).stderr = e ∧
    run_command tsecs t.command ProcOutcome.timeout =
      Except.error (timeoutMsg tsecs t.command) :=
  ⟨rc_append_err runner t rest e ht pre hpre, rfl, rfl, rfl, rfl⟩

/-- Witness for C6: A succeeds, T times out, C is never executed. -/
theorem runner_error_synthesizes_witness :
    run_commands exRunnerT ([exCmdA] ++ exCmdT :: [exCmdC]) =
      run_commands exRunnerT [exCmdA] ++ [synthResult "sleep 999".data exErrMsg] ∧
    (synthResult "sleep 999".data exErrMsg).success = false ∧
    (synthResult "sleep 999".data exErrMsg).exit_code = none ∧
    (synthResult "sleep 999".data exErrMsg).stderr = exErrMsg ∧
    run_command 120 "sleep 999".data ProcOutcome.timeout =
      Except.error (timeoutMsg 120 "sleep 999".data) :=
  runner_error_synthesizes 120 exRunnerT [exCmdA] exCmdT [exCmdC] exErrMsg
    (by intro c hc
        have : c = exCmdA := by simpa using hc
        exact ⟨exResA, by rw [this]; rfl, rfl⟩)
    rfl

/-- C7: every `CommandResult` the pipeline produces — packaged by
`run_command` from a finished process or synthesized by `run_commands`
on a Runner failure — has `success` true exactly when `exit_code` is
zero; a non-zero or absent exit code always comes with `success` false. -/
theorem command_result_success_iff_exit_zero (tsecs : Nat) (proc : Str → ProcOutcome)
    (commands : List TaskCommand) :
    ((run_commands (mkRunner tsecs proc) commands).all
        (fun r => r.success == (r.exit_code == some 0))) = true ∧
    (∀ cmd outcome r, run_command tsecs cmd outcome = Except.ok r →
      r.success = (r.exit_code == some 0)) := by
  constructor
  · induction commands with
    | nil => rfl
    | cons t rest ih =>
      cases hp : proc t.command with
      | ok out =>
        have hr : mkRunner tsecs proc t.command = Except.ok (okResult t.command out) := by
          simp [mkRunner, run_command, hp]
        by_cases hs : out.status.success = true
        · rw [(rc_cons_ok_true (mkRunner tsecs proc) t rest _ hr hs).1]
          simp [List.all_cons, ih, okResult_success, okResult_exit_code, ExitStatus.success]
        · have hsf : out.status.success = false := by simpa using hs
          rw [(rc_cons_ok_false (mkRunner tsecs proc) t rest _ hr hsf).1]
          simp [List.all_cons, okResult_success, okResult_exit_code, ExitStatus.success]
      | timeout =>
        have hr : mkRunner tsecs proc t.command =
            Except.error (timeoutMsg tsecs t.command) := by
          simp [mkRunner, run_command, hp]
        rw [(rc_cons_err (mkRunner tsecs proc) t rest _ hr).1]
        rfl
      | spawnError =>
        have hr : mkRunner tsecs proc t.command =
            Except.error (spawnErrMsg t.command) := by
          simp [mkRunner, run_command, hp]
        rw [(rc_cons_err (mkRunner tsecs proc) t rest _ hr).1]
        rfl
  · intro cmd outcome r h
    cases outcome with
    | ok out =>
      have hr : r = okResult cmd out := by
        simp only [run_command, Except.ok.injEq] at h
        exact h.symm
      rw [hr]
      rfl
    | timeout => exact absurd h (by simp [run_command])
    | spawnError => exact absurd h (by simp [run_command])

/-- Witness for C7: the exit-0 result of command A. -/
theorem command_result_success_iff_exit_zero_witness :
    exResA.success = (exResA.exit_code == some 0) :=
  (command_result_success_iff_exit_zero 120 exProc exCmds).2 "echo a".data
    (ProcOutcome.ok ⟨⟨some 0⟩, [], []⟩) exResA rfl

/-- C8 (code bug): `parse_commands` is not total — on `"] ["` the
candidate selection inside `extract_json_array` panics (slice start 2,
slice end 1) before any decode happens, for every decoder; where a
candidate is selected, a decode failure is indeed swallowed into the
empty list. -/
theorem parse_commands_panic_on_bracket_order :
    (∀ decode, parse_commands decode "] [".data = none) ∧
    parse_commands (fun j => Except.error ("bad ".data ++ j)) "not json".data = some [] := by
  exact ⟨fun decode => rfl, rfl⟩

/-- C9 (code bug): `extract_json_array` is not total.  On `"]x["` the
bracket-scan slice `text[start..=end]` has start 2 and end 0 and panics
(modelled as `none`); the other edge case the claim names — an opening
triple-backtick marker with no closing marker — does fall through to the
bracket scan without panicking, and when the first `[` immediately
follows the last `]` the slice is empty rather than panicking. -/
theorem extract_bracket_slice_panics :
    extract_json_array "]x[".data = none ∧
    extract_json_array "][".data = some [] ∧
    extract_json_array "``` [1]".data = some "[1]".data := by
  refine ⟨by decide, by decide, by decide⟩

/-- C10: the results of `run_commands` are index-aligned with the input
prefix they cover — the i-th result carries the i-th input command
string — and every result except possibly the last one is a success. -/
theorem run_commands_aligned (tsecs : Nat) (proc : Str → ProcOutcome)
    (commands : List TaskCommand) :
    (run_commands (mkRunner tsecs proc) commands).map (fun r => r.command) =
      (commands.take (run_commands (mkRunner tsecs proc) commands).length).map
        (fun c => c.command) ∧
    ((run_commands (mkRunner tsecs proc) commands).dropLast.all
        (fun r => r.success)) = true := by
  induction commands with
  | nil => exact ⟨rfl, rfl⟩
  | cons t rest ih =>
    cases hp : proc t.command with
    | ok out =>
      have hr : mkRunner tsecs proc t.command = Except.ok (okResult t.command out) := by
        simp [mkRunner, run_command, hp]
      by_cases hs : out.status.success = true
      · rw [(rc_cons_ok_true (mkRunner tsecs proc) t rest _ hr hs).1]
        constructor
        · simp only [List.map_cons, List.length_cons, List.take_succ_cons, okResult_command]
          rw [ih.1]
        · cases hrec : run_commands (mkRunner tsecs proc) rest with
          | nil => rfl
          | cons r2 rs =>
            have h2 := ih.2
            rw [hrec] at h2
            show (okResult t.command out :: (r2 :: rs).dropLast).all
                (fun r => r.success) = true
            simp only [List.all_cons, h2, Bool.and_true, okResult_success]
            exact hs
      · have hsf : out.status.success = false := by simpa using hs
        rw [(rc_cons_ok_false (mkRunner tsecs proc) t rest _ hr hsf).1]
        exact ⟨rfl, rfl⟩
    | timeout =>
      have hr : mkRunner tsecs proc t.command =
          Except.error (timeoutMsg tsecs t.command) := by
        simp [mkRunner, run_command, hp]
      rw [(rc_cons_err (mkRunner tsecs proc) t rest _ hr).1]
      exact ⟨rfl, rfl⟩
    | spawnError =>
      have hr : mkRunner tsecs proc t.command =
          Except.error (spawnErrMsg t.command) := by
        simp [mkRunner, run_command, hp]
      rw [(rc_cons_err (mkRunner tsecs proc) t rest _ hr).1]
      exact ⟨rfl, rfl⟩

end Claw
